import Mathlib

/-!
Verification of the agent-sandbox frontend against its design specification.

The Python sources under `frontend/src` are shallowly embedded below:

* `AgtsdbxApp.send_message`, `AgtsdbxApp.handle_tool_calls` and
  `AgtsdbxApp._execute_tool` (frontend/src/app/main.py) become pure
  functions over an explicit transcript (`List Message`), parameterised by
  an environment `Env` that supplies the behaviour of the external
  collaborators (the completion client, `json.loads`, and the registered
  tool handlers).  Python exceptions become `Except String` values carrying
  `str(e)`.
* `AgtsdbxClient._make_request` and the typed sandbox methods
  (frontend/src/clients/agtsdbx_client.py) become a fuel-indexed loop over
  an oracle of per-attempt HTTP outcomes.
* `ExecutionTools.execute_parallel_commands` and
  `_format_execution_result` (frontend/src/tools/execution_tools.py)
  become pure formatting over per-command outcomes, with `asyncio.gather`
  modelled as reassembly of completion events by input index.
* `CacheManager` (frontend/src/core/cache.py) becomes a step function on
  an ordered association list mirroring `collections.OrderedDict`.
-/

namespace Agtsdbx

/-! ## Data model (spec §3, frontend/src/app/main.py)

Transcript entries are Python dicts; the keys actually used by
`send_message` / `handle_tool_calls` are `role`, `content`,
`tool_call_id` and `name`.  `content` is `Option String` because the
model may return `null` content alongside tool calls. -/

inductive Role where
  | user
  | assistant
  | tool
  | system
deriving Repr, DecidableEq

/-- One tool call as it appears in `message["tool_calls"]`:
`{"id": ..., "function": {"name": ..., "arguments": <JSON string>}}`. -/
structure ToolCall where
  id : String
  fname : String
  arguments : String
deriving Repr, DecidableEq

/-- One transcript entry (a Python dict in `self.messages`). -/
structure Message where
  role : Role
  content : Option String
  tool_call_id : Option String := none
  name : Option String := none
deriving Repr, DecidableEq

/-- `choices[0]["message"]` of the first completion response:
nullable `content` plus optional `tool_calls`. -/
structure CompletionMsg where
  content : Option String
  tool_calls : Option (List ToolCall) := none
deriving Repr, DecidableEq

/-- `{"role": "user", "content": text}` -/
def userMsg (text : String) : Message :=
  { role := .user, content := some text }

/-- `{"role": "assistant", "content": c}` -/
def assistantMsg (c : Option String) : Message :=
  { role := .assistant, content := c }

/-! ## External collaborators

`send_message` interacts with the outside world through
`self.fabric_client.chat_completion` (twice), `json.loads`, and the
registered tool methods.  All are captured in an `Env`; the argument
type `A` stands for the Python dict produced by `json.loads`. -/

/-- Behaviour of the collaborators of one `send_message` turn.
`.error e` models a raised exception with `str(e) = e`. -/
structure Env (A : Type) where
  /-- `json.loads` on an `arguments` string: `none` models
  `json.JSONDecodeError` being raised. -/
  parseJson : String → Option A
  /-- `AgtsdbxApp._execute_tool`: either the returned string or the
  message of the raised exception. -/
  execTool : String → A → Except String String
  /-- First `fabric_client.chat_completion` call (tools attached):
  yields `choices[0]["message"]`. -/
  firstCompletion : List Message → Except String CompletionMsg
  /-- Second `fabric_client.chat_completion` call (no tools):
  yields `choices[0]["message"]["content"]`. -/
  finalCompletion : List Message → Except String (Option String)

/-- `str(json.JSONDecodeError)` stand-in used when `json.loads` fails. -/
def jsonDecodeError (s : String) : String :=
  "Expecting value: " ++ s

/-- `AgtsdbxApp._execute_tool` (main.py lines 120–127): scan the
registered tool groups for a method named `fname`
(`hasattr`/`getattr`); if none has it, raise
`ValueError(f"Tool function '{function_name}' not found")`. -/
def execute_tool {A : Type} (tools : List (String × (A → Except String String)))
    (fname : String) (args : A) : Except String String :=
  match tools.find? (fun t => t.1 = fname) with
  | some t => t.2 args
  | none => .error ("Tool function '" ++ fname ++ "' not found")

/-- The tool-role response dict built for one call inside
`handle_tool_calls`' loop body: the `try` around `_execute_tool`
converts a raised exception `e` into the content
`f"Tool execution failed: {str(e)}"`. -/
def mkToolMsg {A : Type} (env : Env A) (tc : ToolCall) (args : A) : Message :=
  { role := .tool
    content := some (match env.execTool tc.fname args with
      | .ok r => r
      | .error e => "Tool execution failed: " ++ e)
    tool_call_id := some tc.id
    name := some tc.fname }

/-- `AgtsdbxApp.handle_tool_calls` (main.py lines 90–118).

For each call: `json.loads(tool_call["function"]["arguments"])` runs
*outside* the `try` block, so a parse failure propagates out of the
loop (the partially built `tool_responses` list is discarded). -/
def handle_tool_calls {A : Type} (env : Env A) : List ToolCall → Except String (List Message)
  | [] => .ok []
  | tc :: rest =>
    match env.parseJson tc.arguments with
    | none => .error (jsonDecodeError tc.arguments)
    | some args =>
      match handle_tool_calls env rest with
      | .ok msgs => .ok (mkToolMsg env tc args :: msgs)
      | .error e => .error e

/-- `f"Error processing message: {str(e)}"` (main.py line 162). -/
def errStr (e : String) : String :=
  "Error processing message: " ++ e

/-- `AgtsdbxApp.send_message` (main.py lines 129–164), as a function
from the transcript before the turn to the transcript after the turn
together with the returned value.

Control flow is mirrored exactly: append the user message; call the
first completion; if `message.get("tool_calls")` is truthy, run
`handle_tool_calls`, extend the transcript with the tool responses and
call the final completion; otherwise take `message["content"]`
directly.  Any raised exception is caught at the turn boundary, an
assistant message with the formatted error string is appended to
whatever the transcript is at that point, and the string is returned.

Note: the assistant message carrying the `tool_calls` is *not*
appended to `self.messages` anywhere in this function. -/
def send_message {A : Type} (env : Env A) (msgs : List Message) (text : String) :
    List Message × Option String :=
  let msgs1 := msgs ++ [userMsg text]
  match env.firstCompletion msgs1 with
  | .error e => (msgs1 ++ [assistantMsg (some (errStr e))], some (errStr e))
  | .ok message =>
    let tcs := message.tool_calls.getD []
    if tcs.isEmpty then
      (msgs1 ++ [assistantMsg message.content], message.content)
    else
      match handle_tool_calls env tcs with
      | .error e => (msgs1 ++ [assistantMsg (some (errStr e))], some (errStr e))
      | .ok tool_responses =>
        let msgs2 := msgs1 ++ tool_responses
        match env.finalCompletion msgs2 with
        | .error e => (msgs2 ++ [assistantMsg (some (errStr e))], some (errStr e))
        | .ok content => (msgs2 ++ [assistantMsg content], content)

/-! ## The echo scenario (spec §8)

User sends `"Run echo test"`; the first completion returns exactly one
tool call `execute_shell_command({"command": "echo test"})`; dispatch
returns the formatted execution string; the second completion returns
`"I've executed the echo command for you."`. -/

/-- Arguments dict of the echo scenario's tool call. -/
def echoArgs : List (String × String) := [("command", "echo test")]

/-- The single tool call issued by the first completion in the echo
scenario. -/
def echoToolCall : ToolCall :=
  { id := "call_123"
    fname := "execute_shell_command"
    arguments := "\x7b\"command\": \"echo test\"\x7d" }

/-- Collaborator behaviour of the echo scenario. -/
def echoEnv : Env (List (String × String)) :=
  { parseJson := fun s =>
      if s = "\x7b\"command\": \"echo test\"\x7d" then some echoArgs else none
    execTool := fun fname args =>
      if fname = "execute_shell_command" ∧ args = echoArgs then
        .ok "STDOUT:\ntest\n\nEXIT CODE: 0"
      else
        .error ("Tool function '" ++ fname ++ "' not found")
    firstCompletion := fun _ =>
      .ok { content := none, tool_calls := some [echoToolCall] }
    finalCompletion := fun _ =>
      .ok (some "I've executed the echo command for you.") }

end Agtsdbx

namespace Agtsdbx

/-! ## Theorems for claims C1 and C2 -/

/-- **C1** (code bug witness).  In the echo scenario the transcript
produced by `send_message` is `[user, tool, assistant]`: the tool-role
message is immediately preceded by the *user* message, and no
assistant message at all precedes it, so the tool message's
`tool_call_id` cannot match the `tool_calls` of an immediately
preceding assistant message — `send_message` never appends the
assistant message that carried the tool calls. -/
theorem send_message_tool_msg_follows_user_msg :
    ((send_message echoEnv [] "Run echo test").1.map Message.role
      = [Role.user, Role.tool, Role.assistant])
    ∧ ((send_message echoEnv [] "Run echo test").1.get? 1
        = some { role := .tool
                 content := some "STDOUT:\ntest\n\nEXIT CODE: 0"
                 tool_call_id := some "call_123"
                 name := some "execute_shell_command" })
    ∧ ((send_message echoEnv [] "Run echo test").1.get? 0
        = some (userMsg "Run echo test")) := by
  refine ⟨?_, ?_, ?_⟩ <;> rfl

/-- Every message produced by `handle_tool_calls` has role `tool`. -/
theorem handle_tool_calls_roles {A : Type} (env : Env A) :
    ∀ tcs msgs, handle_tool_calls env tcs = .ok msgs →
      ∀ m ∈ msgs, m.role = Role.tool := by
  intro tcs
  induction tcs with
  | nil =>
    intro msgs h m hm
    simp only [handle_tool_calls] at h
    cases h
    simp at hm
  | cons tc rest ih =>
    intro msgs h m hm
    simp only [handle_tool_calls] at h
    cases hp : env.parseJson tc.arguments with
    | none => rw [hp] at h; cases h
    | some args =>
      rw [hp] at h
      cases hr : handle_tool_calls env rest with
      | error e => simp only [hr] at h; cases h
      | ok ms =>
        simp only [hr] at h
        cases h
        rcases List.mem_cons.mp hm with h1 | h2
        · subst h1; rfl
        · exact ih ms hr m h2

/-- **C3** (confirmed).  Whatever the collaborators do — every
completion call and every tool dispatch may succeed or raise —
`send_message` extends the transcript by exactly one user message
(first), some tool-role messages (possibly none), and exactly one
terminal assistant message whose content is the returned value; when
the first completion raises `e`, when `handle_tool_calls` raises `e`,
or when the final completion raises `e`, the returned value (and hence
the terminal assistant message's content) is the formatted error
string `"Error processing message: " ++ e`. -/
theorem send_message_appends_one_user_one_assistant {A : Type}
    (env : Env A) (msgs : List Message) (text : String) :
    ∃ mids,
      ((send_message env msgs text).1
        = msgs ++ [userMsg text] ++ mids
            ++ [assistantMsg (send_message env msgs text).2])
      ∧ (∀ m ∈ mids, m.role = Role.tool)
      ∧ (∀ e, env.firstCompletion (msgs ++ [userMsg text]) = .error e →
          (send_message env msgs text).2 = some (errStr e))
      ∧ (∀ message e,
          env.firstCompletion (msgs ++ [userMsg text]) = .ok message →
          (message.tool_calls.getD []).isEmpty = false →
          handle_tool_calls env (message.tool_calls.getD []) = .error e →
          (send_message env msgs text).2 = some (errStr e))
      ∧ (∀ message trs e,
          env.firstCompletion (msgs ++ [userMsg text]) = .ok message →
          (message.tool_calls.getD []).isEmpty = false →
          handle_tool_calls env (message.tool_calls.getD []) = .ok trs →
          env.finalCompletion (msgs ++ [userMsg text] ++ trs) = .error e →
          (send_message env msgs text).2 = some (errStr e)) := by
  simp only [send_message]
  cases h1 : env.firstCompletion (msgs ++ [userMsg text]) with
  | error e =>
    refine ⟨[], ?_, ?_, ?_, ?_, ?_⟩
    · simp
    · intro m hm; simp at hm
    · intro e' he'; cases he'; rfl
    · intro m e' hm; cases hm
    · intro m trs e' hm; cases hm
  | ok message =>
    cases hemp : (message.tool_calls.getD []).isEmpty with
    | true =>
      refine ⟨[], ?_, ?_, ?_, ?_, ?_⟩
      · simp [hemp]
      · intro m hm; simp at hm
      · intro e he; cases he
      · intro m e hm hne; cases hm; rw [hemp] at hne; cases hne
      · intro m trs e hm hne; cases hm; rw [hemp] at hne; cases hne
    | false =>
      simp only [hemp, Bool.false_eq_true, if_false]
      cases h2 : handle_tool_calls env (message.tool_calls.getD []) with
      | error e =>
        dsimp only
        refine ⟨[], ?_, ?_, ?_, ?_, ?_⟩
        · simp
        · intro m hm; simp at hm
        · intro e' he; cases he
        · intro m e' hm _ hh; cases hm; rw [h2] at hh; cases hh; rfl
        · intro m trs e' hm _ hh; cases hm; rw [h2] at hh; cases hh
      | ok trs =>
        dsimp only
        cases h3 : env.finalCompletion (msgs ++ [userMsg text] ++ trs) with
        | error e =>
          dsimp only
          refine ⟨trs, ?_, handle_tool_calls_roles env _ trs h2, ?_, ?_, ?_⟩
          · simp
          · intro e' he; cases he
          · intro m e' hm _ hh; cases hm; rw [h2] at hh; cases hh
          · intro m trs' e' hm _ hh hf
            cases hm; rw [h2] at hh; cases hh
            rw [h3] at hf; cases hf; rfl
        | ok content =>
          dsimp only
          refine ⟨trs, ?_, handle_tool_calls_roles env _ trs h2, ?_, ?_, ?_⟩
          · simp
          · intro e' he; cases he
          · intro m e' hm _ hh; cases hm; rw [h2] at hh; cases hh
          · intro m trs' e' hm _ hh hf
            cases hm; rw [h2] at hh; cases hh
            rw [h3] at hf; cases hf

/-- **C2** (code bug witness).  In the echo scenario `send_message`
does return the final string `"I've executed the echo command for
you."`, but the resulting transcript has 3 messages — user, tool,
assistant-final — not the 4 the specification requires: the
assistant-with-tool-call message is missing. -/
theorem send_message_echo_transcript_has_three_messages :
    (send_message echoEnv [] "Run echo test").2
      = some "I've executed the echo command for you."
    ∧ (send_message echoEnv [] "Run echo test").1
      = [userMsg "Run echo test",
         { role := .tool
           content := some "STDOUT:\ntest\n\nEXIT CODE: 0"
           tool_call_id := some "call_123"
           name := some "execute_shell_command" },
         assistantMsg (some "I've executed the echo command for you.")]
    ∧ (send_message echoEnv [] "Run echo test").1.length = 3 := by
  refine ⟨?_, ?_, ?_⟩ <;> rfl

/-! ## Claim C4: malformed tool-call arguments -/

/-- A tool call whose `arguments` string is not valid JSON. -/
def badToolCall : ToolCall :=
  { id := "call_bad"
    fname := "execute_shell_command"
    arguments := "not json" }

/-- Scenario in which the first completion requests one tool call with
malformed arguments. -/
def badArgsEnv : Env (List (String × String)) :=
  { parseJson := fun _ => none
    execTool := fun _ _ => .ok "unused"
    firstCompletion := fun _ =>
      .ok { content := none, tool_calls := some [badToolCall] }
    finalCompletion := fun _ => .ok (some "done") }

/-- If some call's arguments fail to parse, `handle_tool_calls` raises:
`json.loads` runs before the per-call `try`, so the decode error
propagates out of the dispatch loop. -/
theorem handle_tool_calls_error_of_parse_failure {A : Type} (env : Env A) :
    ∀ tcs : List ToolCall, (∃ tc ∈ tcs, env.parseJson tc.arguments = none) →
      ∃ e, handle_tool_calls env tcs = .error e := by
  intro tcs
  induction tcs with
  | nil => intro h; simp at h
  | cons tc rest ih =>
    intro h
    obtain ⟨tc', htc', hbad⟩ := h
    rcases List.mem_cons.mp htc' with h1 | h2
    · rw [h1] at hbad
      exact ⟨jsonDecodeError tc.arguments, by simp [handle_tool_calls, hbad]⟩
    · cases hp : env.parseJson tc.arguments with
      | none => exact ⟨jsonDecodeError tc.arguments, by simp [handle_tool_calls, hp]⟩
      | some args =>
        obtain ⟨e, he⟩ := ih ⟨tc', h2, hbad⟩
        exact ⟨e, by simp [handle_tool_calls, hp, he]⟩

/-- **C4** (counterexample).  A tool call with non-JSON arguments is
*not* converted into a tool-role message: `handle_tool_calls` raises,
and the turn's transcript contains no tool-role message at all — the
dispatch phase is aborted by the malformed arguments. -/
theorem malformed_args_no_tool_message :
    handle_tool_calls badArgsEnv [badToolCall]
      = .error (jsonDecodeError "not json")
    ∧ (send_message badArgsEnv [] "hi").1.map Message.role
      = [Role.user, Role.assistant]
    ∧ ∀ m ∈ (send_message badArgsEnv [] "hi").1, m.role ≠ Role.tool := by
  refine ⟨rfl, rfl, ?_⟩
  decide

/-- **C4** (amended).  A tool call with non-JSON arguments makes the
whole dispatch phase raise (the parse runs before the per-call
`try`/`except`), so no tool-role message is produced for any call of
the batch; the exception is caught at the turn boundary by
`send_message`, which appends a single assistant-role message with the
formatted error string and returns that string. -/
theorem malformed_args_caught_at_turn_boundary {A : Type}
    (env : Env A) (msgs : List Message) (text : String)
    (message : CompletionMsg)
    (h1 : env.firstCompletion (msgs ++ [userMsg text]) = .ok message)
    (hne : (message.tool_calls.getD []).isEmpty = false)
    (hbad : ∃ tc ∈ message.tool_calls.getD [], env.parseJson tc.arguments = none) :
    ∃ e, handle_tool_calls env (message.tool_calls.getD []) = .error e
      ∧ send_message env msgs text
          = (msgs ++ [userMsg text] ++ [assistantMsg (some (errStr e))],
             some (errStr e)) := by
  obtain ⟨e, h2⟩ := handle_tool_calls_error_of_parse_failure env _ hbad
  refine ⟨e, h2, ?_⟩
  simp only [send_message, h1, hne, Bool.false_eq_true, if_false, h2]

/-- Witness for the amended C4 theorem at the concrete bad-arguments
scenario. -/
theorem malformed_args_caught_at_turn_boundary_witness :
    ∃ e, handle_tool_calls badArgsEnv
        ((CompletionMsg.mk none (some [badToolCall])).tool_calls.getD []) = .error e
      ∧ send_message badArgsEnv [] "hi"
          = ([] ++ [userMsg "hi"] ++ [assistantMsg (some (errStr e))],
             some (errStr e)) :=
  malformed_args_caught_at_turn_boundary badArgsEnv [] "hi"
    (CompletionMsg.mk none (some [badToolCall])) rfl rfl
    ⟨badToolCall, by simp, rfl⟩

/-! ## Claim C6: unknown tool name -/

/-- When every call's arguments parse, the dispatch loop raises
nothing: `handle_tool_calls` returns `ok`. -/
theorem handle_tool_calls_ok_of_parse_ok {A : Type} (env : Env A) :
    ∀ tcs : List ToolCall, (∀ tc ∈ tcs, (env.parseJson tc.arguments).isSome) →
      ∃ rs, handle_tool_calls env tcs = .ok rs := by
  intro tcs
  induction tcs with
  | nil => exact fun _ => ⟨[], rfl⟩
  | cons tc rest ih =>
    intro h
    obtain ⟨args, hargs⟩ := Option.isSome_iff_exists.mp (h tc (List.mem_cons_self _ _))
    obtain ⟨rs, hrs⟩ := ih (fun tc' h' => h tc' (List.mem_cons_of_mem _ h'))
    exact ⟨mkToolMsg env tc args :: rs, by simp [handle_tool_calls, hargs, hrs]⟩

/-- `handle_tool_calls` over an all-parsing prefix: the prefix
contributes one tool-role message per call in front of the remaining
responses. -/
theorem handle_tool_calls_append_of_parse_ok {A : Type} (env : Env A) :
    ∀ (pre tcs : List ToolCall) (rs : List Message),
      (∀ tc ∈ pre, (env.parseJson tc.arguments).isSome) →
      handle_tool_calls env tcs = .ok rs →
      ∃ rsPre, handle_tool_calls env (pre ++ tcs) = .ok (rsPre ++ rs)
        ∧ rsPre.length = pre.length := by
  intro pre
  induction pre with
  | nil => exact fun tcs rs _ h => ⟨[], by simpa using h, rfl⟩
  | cons tcp rest ih =>
    intro tcs rs hpre h
    obtain ⟨args0, hargs0⟩ :=
      Option.isSome_iff_exists.mp (hpre tcp (List.mem_cons_self _ _))
    obtain ⟨rsPre, hrsPre, hlen⟩ :=
      ih tcs rs (fun tc' h' => hpre tc' (List.mem_cons_of_mem _ h')) h
    refine ⟨mkToolMsg env tcp args0 :: rsPre, ?_, by simp [hlen]⟩
    simp [handle_tool_calls, hargs0, hrsPre]

/-- **C6** (confirmed).  A tool call whose function name matches no
registered tool method (all arguments in the batch being valid JSON)
never aborts the dispatch phase: `handle_tool_calls` returns `ok`, the
response at that call's position is a tool-role message with
`tool_call_id` equal to the call's id whose content contains
`"not found"`, and the turn continues to the final completion, whose
text becomes the returned assistant message. -/
theorem unknown_tool_reported_not_found {A : Type}
    (tools : List (String × (A → Except String String))) (env : Env A)
    (msgs : List Message) (text : String) (c0 : Option String)
    (pre post : List ToolCall) (tc : ToolCall) (args : A)
    (hexec : env.execTool = fun fname args => execute_tool tools fname args)
    (hfirst : env.firstCompletion (msgs ++ [userMsg text])
      = .ok { content := c0, tool_calls := some (pre ++ tc :: post) })
    (hpre : ∀ tc' ∈ pre, (env.parseJson tc'.arguments).isSome)
    (hpost : ∀ tc' ∈ post, (env.parseJson tc'.arguments).isSome)
    (hp : env.parseJson tc.arguments = some args)
    (hfind : tools.find? (fun t => t.1 = tc.fname) = none) :
    ∃ rs, handle_tool_calls env (pre ++ tc :: post) = .ok rs
      ∧ rs.get? pre.length
          = some { role := .tool
                   content := some ("Tool execution failed: "
                      ++ ("Tool function '" ++ tc.fname ++ "' not found"))
                   tool_call_id := some tc.id
                   name := some tc.fname }
      ∧ (∃ p q, "Tool execution failed: "
            ++ ("Tool function '" ++ tc.fname ++ "' not found")
            = p ++ "not found" ++ q)
      ∧ (∀ c, env.finalCompletion (msgs ++ [userMsg text] ++ rs) = .ok c →
          send_message env msgs text
            = (msgs ++ [userMsg text] ++ rs ++ [assistantMsg c], c)) := by
  obtain ⟨rsPost, hrsPost⟩ := handle_tool_calls_ok_of_parse_ok env post hpost
  have htc : handle_tool_calls env (tc :: post)
      = .ok (mkToolMsg env tc args :: rsPost) := by
    simp [handle_tool_calls, hp, hrsPost]
  obtain ⟨rsPre, hrs, hlen⟩ :=
    handle_tool_calls_append_of_parse_ok env pre (tc :: post) _ hpre htc
  have hmsg : mkToolMsg env tc args
      = { role := .tool
          content := some ("Tool execution failed: "
             ++ ("Tool function '" ++ tc.fname ++ "' not found"))
          tool_call_id := some tc.id
          name := some tc.fname } := by
    simp [mkToolMsg, hexec, execute_tool, hfind]
  refine ⟨rsPre ++ mkToolMsg env tc args :: rsPost, hrs, ?_, ?_, ?_⟩
  · rw [← hlen, List.get?_append_right (Nat.le_refl _)]
    simp [hmsg]
  · refine ⟨"Tool execution failed: " ++ ("Tool function '" ++ tc.fname ++ "' "), "", ?_⟩
    have h1 : ("Tool function '" ++ tc.fname ++ "' ") ++ "not found"
        = "Tool function '" ++ tc.fname ++ "' not found" := by
      rw [String.append_assoc ("Tool function '" ++ tc.fname) "' " "not found"]
      exact rfl
    rw [String.append_empty,
      String.append_assoc "Tool execution failed: "
        ("Tool function '" ++ tc.fname ++ "' ") "not found", h1]
  · intro c hfc
    have hne : ((pre ++ tc :: post : List ToolCall).isEmpty) = false := by
      cases pre <;> rfl
    simp only [send_message, hfirst, Option.getD_some, hne, Bool.false_eq_true,
      if_false, hrs, hfc]

/-- An empty tool registry: no group has a method named
`does_not_exist`. -/
def noTools : List (String × (List (String × String) → Except String String)) := []

/-- The unknown tool call of the C6 witness scenario. -/
def unknownCall : ToolCall :=
  { id := "call_unknown", fname := "does_not_exist", arguments := "{}" }

/-- Collaborator behaviour for the unknown-tool scenario. -/
def unknownEnv : Env (List (String × String)) :=
  { parseJson := fun s => if s = "{}" then some [] else none
    execTool := fun fname args => execute_tool noTools fname args
    firstCompletion := fun _ =>
      .ok { content := none, tool_calls := some [unknownCall] }
    finalCompletion := fun _ => .ok (some "The tool does not exist.") }

/-- Witness for the unknown-tool theorem at the concrete
`does_not_exist` scenario. -/
theorem unknown_tool_reported_not_found_witness :
    ∃ rs, handle_tool_calls unknownEnv ([] ++ unknownCall :: []) = .ok rs
      ∧ rs.get? ([] : List ToolCall).length
          = some { role := .tool
                   content := some ("Tool execution failed: "
                      ++ ("Tool function '" ++ unknownCall.fname ++ "' not found"))
                   tool_call_id := some unknownCall.id
                   name := some unknownCall.fname }
      ∧ (∃ p q, "Tool execution failed: "
            ++ ("Tool function '" ++ unknownCall.fname ++ "' not found")
            = p ++ "not found" ++ q)
      ∧ (∀ c, unknownEnv.finalCompletion ([] ++ [userMsg "hi"] ++ rs) = .ok c →
          send_message unknownEnv [] "hi"
            = ([] ++ [userMsg "hi"] ++ rs ++ [assistantMsg c], c)) :=
  unknown_tool_reported_not_found noTools unknownEnv [] "hi" none [] [] unknownCall []
    rfl rfl (by simp) (by simp) rfl rfl

/-! ## Transport client (frontend/src/clients/agtsdbx_client.py)

`AgtsdbxClient._make_request` is a loop over
`range(self.max_retries)` around `self.session.request(...)`.  Each
underlying attempt is abstracted by an oracle `att : Nat →
AttemptResult B`: a decoded success (with its content-type), an
`httpx.HTTPStatusError` raised by `raise_for_status()`, or any other
exception.  `B` is the type of parsed JSON bodies. -/

/-- Outcome of one `session.request` + `raise_for_status()` +
decoding attempt. -/
inductive AttemptResult (B : Type) where
  | ok (contentTypeJson : Bool) (json : B) (text : String)
  | httpError (status : Nat)
  | exn (e : String)

/-- Failures that `_make_request` can propagate. -/
inductive RequestError where
  /-- `RuntimeError("Client not initialized. Use async context manager.")` -/
  | notInitialized
  /-- a re-raised `httpx.HTTPStatusError` with this status code -/
  | http (status : Nat)
  /-- any other re-raised exception, by message -/
  | exn (e : String)
deriving Repr, DecidableEq

/-- One run of `_make_request`: the returned/raised outcome, how many
underlying `session.request` calls were performed, and the backoff
delays slept (in order).  `ok none` models the implicit `return None`
when `max_retries = 0` makes the loop body never run. -/
structure ReqRun (B : Type) where
  result : Except RequestError (Option (B ⊕ String))
  attempts : Nat
  sleeps : List ℚ

/-- Response decoding (lines 233–236): JSON content-type yields the
parsed body, anything else yields `{"content": response.text}`
(modelled as the right summand). -/
def decodeResponse {B : Type} (contentTypeJson : Bool) (json : B) (text : String) :
    B ⊕ String :=
  if contentTypeJson then Sum.inl json else Sum.inr text

/-- The `for attempt in range(max_retries)` loop of `_make_request`
(lines 223–245), starting at iteration `k`:

* a successful attempt returns the decoded response;
* `httpx.HTTPStatusError` re-raises when `status < 500` or this was
  the last attempt, else sleeps `retry_delay * 2 ** attempt` and
  retries;
* any other exception re-raises on the last attempt, else sleeps the
  same backoff and retries. -/
def requestLoop {B : Type} (att : Nat → AttemptResult B)
    (max_retries : Nat) (retry_delay : ℚ) (k : Nat) : ReqRun B :=
  if h : k < max_retries then
    match att k with
    | .ok ct j t => ⟨.ok (some (decodeResponse ct j t)), 1, []⟩
    | .httpError s =>
      if s < 500 ∨ k = max_retries - 1 then ⟨.error (.http s), 1, []⟩
      else
        let r := requestLoop att max_retries retry_delay (k + 1)
        ⟨r.result, r.attempts + 1, retry_delay * 2 ^ k :: r.sleeps⟩
    | .exn e =>
      if k = max_retries - 1 then ⟨.error (.exn e), 1, []⟩
      else
        let r := requestLoop att max_retries retry_delay (k + 1)
        ⟨r.result, r.attempts + 1, retry_delay * 2 ^ k :: r.sleeps⟩
  else ⟨.ok none, 0, []⟩
  termination_by max_retries - k

/-- `AgtsdbxClient._make_request` (lines 210–245): raise
`RuntimeError` before any attempt when `self.session` is not set
(no `async with` scope acquired), else run the retry loop from
attempt 0.  `method` and `endpoint` shape the URL only; they do not
influence the control flow. -/
def make_request {B : Type} (sessionInit : Bool) (method endpoint : String)
    (att : Nat → AttemptResult B) (max_retries : Nat) (retry_delay : ℚ) : ReqRun B :=
  if sessionInit then requestLoop att max_retries retry_delay 0
  else ⟨.error .notInitialized, 0, []⟩

/-- A 5xx response or a non-HTTP exception: the attempt outcomes the
loop retries on (when attempts remain). -/
def retryableFailure {B : Type} : AttemptResult B → Prop
  | .ok _ _ _ => False
  | .httpError s => 500 ≤ s
  | .exn _ => True

/-- **C5** (confirmed).  With `max_retries = 3`: two 500s then a
success yield the decoded success after exactly 3 attempts with
backoff sleeps `retry_delay * 2^0` and `retry_delay * 2^1`; a 4xx on
the first attempt propagates after exactly 1 attempt with no sleep;
and when every attempt fails retryably, the loop performs exactly
`max_retries` attempts and propagates the last attempt's failure. -/
theorem make_request_retry_policy {B : Type} :
    (∀ (att : Nat → AttemptResult B) (d : ℚ) ct j t,
      att 0 = .httpError 500 → att 1 = .httpError 500 → att 2 = .ok ct j t →
      make_request true "POST" "/api/v1/exec" att 3 d
        = ⟨.ok (some (decodeResponse ct j t)), 3, [d * 2 ^ 0, d * 2 ^ 1]⟩)
    ∧ (∀ (att : Nat → AttemptResult B) (d : ℚ) (mr s : Nat),
      400 ≤ s → s < 500 → att 0 = .httpError s → 0 < mr →
      make_request true "POST" "/api/v1/exec" att mr d
        = ⟨.error (.http s), 1, []⟩)
    ∧ (∀ (att : Nat → AttemptResult B) (d : ℚ) (mr : Nat),
      0 < mr → (∀ k, k < mr → retryableFailure (att k)) →
      (make_request true "POST" "/api/v1/exec" att mr d).attempts = mr
      ∧ ((∃ s, att (mr - 1) = .httpError s
            ∧ (make_request true "POST" "/api/v1/exec" att mr d).result
              = .error (.http s))
        ∨ (∃ e, att (mr - 1) = .exn e
            ∧ (make_request true "POST" "/api/v1/exec" att mr d).result
              = .error (.exn e)))) := by
  refine ⟨?_, ?_, ?_⟩
  · intro att d ct j t h0 h1 h2
    simp only [make_request, if_true]
    rw [requestLoop]; simp only [Nat.lt_irrefl, h0]
    norm_num
    rw [requestLoop]; simp only [h1]
    norm_num
    rw [requestLoop]; simp only [h2]
    norm_num
  · intro att d mr s h4 h5 h0 hmr
    simp only [make_request, if_true]
    rw [requestLoop]
    simp [hmr, h0, h5]
  · intro att d mr hmr hall
    simp only [make_request, if_true]
    have main : ∀ n k, n = mr - k → k < mr →
        (∀ j, k ≤ j → j < mr → retryableFailure (att j)) →
        (requestLoop att mr d k).attempts = mr - k
        ∧ ((∃ s, att (mr - 1) = .httpError s
              ∧ (requestLoop att mr d k).result = .error (.http s))
          ∨ (∃ e, att (mr - 1) = .exn e
              ∧ (requestLoop att mr d k).result = .error (.exn e))) := by
      intro n
      induction n with
      | zero => intro k hk hlt _; omega
      | succ n ih =>
        intro k hk hlt hret
        have hrk := hret k (Nat.le_refl k) hlt
        rw [requestLoop]
        simp only [hlt, dif_pos]
        cases hak : att k with
        | ok ct j t => rw [hak] at hrk; exact absurd hrk id
        | httpError s =>
          dsimp only
          rw [hak] at hrk
          have hs : 500 ≤ s := hrk
          by_cases hlast : k = mr - 1
          · rw [if_pos (Or.inr hlast)]
            refine ⟨by simp; omega, Or.inl ⟨s, ?_, rfl⟩⟩
            rw [← hlast]; exact hak
          · have hcond : ¬ (s < 500 ∨ k = mr - 1) := by
              push_neg; exact ⟨by omega, hlast⟩
            rw [if_neg hcond]
            have hk1 : k + 1 < mr := by omega
            obtain ⟨ha, hb⟩ := ih (k + 1) (by omega) hk1
              (fun j hj hj' => hret j (by omega) hj')
            refine ⟨?_, ?_⟩
            · simp only [ha]; omega
            · simpa using hb
        | exn e =>
          dsimp only
          by_cases hlast : k = mr - 1
          · rw [if_pos hlast]
            refine ⟨by simp; omega, Or.inr ⟨e, ?_, rfl⟩⟩
            rw [← hlast]; exact hak
          · rw [if_neg hlast]
            have hk1 : k + 1 < mr := by omega
            obtain ⟨ha, hb⟩ := ih (k + 1) (by omega) hk1
              (fun j hj hj' => hret j (by omega) hj')
            refine ⟨?_, ?_⟩
            · simp only [ha]; omega
            · simpa using hb
    exact main (mr - 0) 0 rfl hmr (fun j _ hj => hall j hj)

/-- Concrete attempt oracle: 500 on the first two attempts, JSON
success on the third. -/
def attTwo500 : Nat → AttemptResult (List (String × String)) :=
  fun k => if k < 2 then .httpError 500 else .ok true [("success", "true")] ""

/-- Concrete attempt oracle: always a 404 client error. -/
def att404 : Nat → AttemptResult (List (String × String)) :=
  fun _ => .httpError 404

/-- Concrete attempt oracle: always a connection-level exception. -/
def attExn : Nat → AttemptResult (List (String × String)) :=
  fun _ => .exn "Network error"

/-- Witness for the retry-policy theorem at concrete attempt
oracles. -/
theorem make_request_retry_policy_witness :
    (make_request true "POST" "/api/v1/exec" attTwo500 3 1
      = ⟨.ok (some (decodeResponse true [("success", "true")] "")), 3,
         [(1 : ℚ) * 2 ^ 0, (1 : ℚ) * 2 ^ 1]⟩)
    ∧ (make_request true "POST" "/api/v1/exec" att404 3 1
      = ⟨.error (.http 404), 1, []⟩)
    ∧ ((make_request true "POST" "/api/v1/exec" attExn 3 1).attempts = 3
      ∧ ((∃ s, attExn (3 - 1) = .httpError s
            ∧ (make_request true "POST" "/api/v1/exec" attExn 3 1).result
              = .error (.http s))
        ∨ (∃ e, attExn (3 - 1) = .exn e
            ∧ (make_request true "POST" "/api/v1/exec" attExn 3 1).result
              = .error (.exn e)))) :=
  ⟨make_request_retry_policy.1 attTwo500 1 true [("success", "true")] "" rfl rfl rfl,
   make_request_retry_policy.2.1 att404 1 3 404 (by decide) (by decide) rfl (by decide),
   make_request_retry_policy.2.2 attExn 1 3 (by decide) (fun k _ => trivial)⟩

/-! ## Remote Operations Client methods (claim C9)

Every typed method of `AgtsdbxClient` wraps `_make_request` in a
`try`/`except` that only logs and re-raises, so its
failure behaviour is that of `_make_request` itself.  The
success-path post-processing (`execute_command` merging a `metadata`
dict into the response) happens after the request returns and plays no
part in the not-initialized or retry behaviour. -/

/-- The `AgtsdbxClient` methods that issue a request through
`_make_request` (`health_inner` is the `GET /health` performed inside
`health_check`). -/
inductive SandboxOp where
  | execute_command
  | write_file
  | read_file
  | list_files
  | delete_file
  | docker_run
  | docker_list
  | network_request
  | get_system_info
  | get_metrics
  | health_inner
deriving Repr, DecidableEq

/-- HTTP method and endpoint used by each `AgtsdbxClient` method
(agtsdbx_client.py lines 26–208). -/
def opRequest : SandboxOp → String × String
  | .execute_command => ("POST", "/api/v1/exec")
  | .write_file => ("POST", "/api/v1/file/write")
  | .read_file => ("POST", "/api/v1/file/read")
  | .list_files => ("POST", "/api/v1/file/list")
  | .delete_file => ("DELETE", "/api/v1/file/delete")
  | .docker_run => ("POST", "/api/v1/docker/run")
  | .docker_list => ("GET", "/api/v1/docker/list")
  | .network_request => ("POST", "/api/v1/network/request")
  | .get_system_info => ("GET", "/api/v1/system/info")
  | .get_metrics => ("GET", "/api/v1/system/metrics")
  | .health_inner => ("GET", "/health")

/-- One `AgtsdbxClient` method call: build the payload, then
`_make_request` with the method's HTTP verb and endpoint. -/
def clientMethod {B : Type} (op : SandboxOp) (sessionInit : Bool)
    (att : Nat → AttemptResult B) (max_retries : Nat) (retry_delay : ℚ) : ReqRun B :=
  make_request sessionInit (opRequest op).1 (opRequest op).2 att max_retries retry_delay

/-- **C9** (confirmed).  Every `AgtsdbxClient` method invoked while
`self.session is None` (no `async with` scope acquired) raises the
not-initialized `RuntimeError` having performed zero underlying
request attempts: the guard at the top of `_make_request` fires before
any network I/O. -/
theorem client_method_requires_initialized_session {B : Type}
    (op : SandboxOp) (att : Nat → AttemptResult B) (max_retries : Nat)
    (retry_delay : ℚ) :
    clientMethod op false att max_retries retry_delay
      = ⟨.error .notInitialized, 0, []⟩ := rfl

/-! ## Health checks (claim C8) -/

/-- Python dict lookup on our assoc-list JSON objects.  The *last*
binding of a key wins, matching `{**a, **b}` merge semantics. -/
def dget (d : List (String × String)) (k : String) : Option String :=
  (d.reverse.find? (fun p => p.1 = k)).map (fun p => p.2)

/-- `str(e)` of the exceptions `AgtsdbxClient.health_check` catches
from `_make_request`. -/
def requestErrorMsg : RequestError → String
  | .notInitialized => "Client not initialized. Use async context manager."
  | .http s => "HTTP status error: " ++ toString s
  | .exn e => e

/-- `str(TypeError)` raised by `{"status": "healthy", **None}` when
`_make_request` falls through its loop and returns `None`
(only possible with `max_retries = 0`). -/
def mergeNoneError : String := "argument after ** must be a mapping"

/-- `AgtsdbxClient.health_check` (agtsdbx_client.py lines 202–208):
`GET /health`; on success return `{"status": "healthy", **response}`
— under last-wins lookup the cons cell is exactly the dict-literal
merge, so a `status` key in the response body overrides `"healthy"` —
and on any exception return `{"status": "unhealthy", "error": str(e)}`. -/
def AgtsdbxClient_health_check (sessionInit : Bool)
    (att : Nat → AttemptResult (List (String × String))) (max_retries : Nat)
    (retry_delay : ℚ) : List (String × String) :=
  match (make_request sessionInit "GET" "/health" att max_retries retry_delay).result with
  | .ok (some (Sum.inl json)) => ("status", "healthy") :: json
  | .ok (some (Sum.inr text)) => ("status", "healthy") :: [("content", text)]
  | .ok none => [("status", "unhealthy"), ("error", mergeNoneError)]
  | .error err => [("status", "unhealthy"), ("error", requestErrorMsg err)]

/-- `FabricClient.health_check` (fabric_client.py lines 139–147): a
one-message completion with a 10s timeout; `ok` carries the response's
`metadata.duration`, `error` the exception message. -/
def FabricClient_health_check (run : Except String ℚ) : List (String × String) :=
  match run with
  | .ok duration => [("status", "healthy"), ("response_time", toString duration)]
  | .error e => [("status", "unhealthy"), ("error", e)]

/-- A `/health` responder whose JSON body carries its own `status`
key. -/
def degradedAtt : Nat → AttemptResult (List (String × String)) :=
  fun _ => .ok true [("status", "degraded")] ""

/-- **C8** (counterexample).  When the sandbox `/health` endpoint
responds with the JSON body `{"status": "degraded"}`, the dict merge
`{"status": "healthy", **response}` lets the body override the
constant, and `health_check` returns a `status` that is neither
`"healthy"` nor `"unhealthy"`. -/
theorem health_check_status_overridden_by_body :
    dget (AgtsdbxClient_health_check true degradedAtt 3 1) "status"
      = some "degraded"
    ∧ dget (AgtsdbxClient_health_check true degradedAtt 3 1) "status"
        ≠ some "healthy"
    ∧ dget (AgtsdbxClient_health_check true degradedAtt 3 1) "status"
        ≠ some "unhealthy" := by
  have h : make_request true "GET" "/health" degradedAtt 3 1
      = ⟨.ok (some (Sum.inl [("status", "degraded")])), 1, []⟩ := by
    simp only [make_request, if_true]
    rw [requestLoop]
    norm_num [degradedAtt, decodeResponse]
  refine ⟨?_, ?_, ?_⟩ <;>
    simp [AgtsdbxClient_health_check, h, dget, List.find?]

/-- **C8** (amended).  Neither `health_check` ever raises (both are
total functions of their collaborators' outcomes); whenever the
underlying request fails for any reason, both return
`{"status": "unhealthy", "error": <message>}`; `FabricClient`'s
`status` is always `"healthy"` or `"unhealthy"`; and
`AgtsdbxClient`'s success path yields `status = "healthy"` only
because the response body is merged over `{"status": "healthy"}` — it
holds whenever the body carries no `status` key of its own. -/
theorem health_check_recovers_failures (sessionInit : Bool)
    (att : Nat → AttemptResult (List (String × String))) (max_retries : Nat)
    (retry_delay : ℚ) (run : Except String ℚ) :
    (∀ err, (make_request sessionInit "GET" "/health" att max_retries retry_delay).result
        = .error err →
      AgtsdbxClient_health_check sessionInit att max_retries retry_delay
        = [("status", "unhealthy"), ("error", requestErrorMsg err)])
    ∧ (∀ json,
        (make_request sessionInit "GET" "/health" att max_retries retry_delay).result
          = .ok (some (Sum.inl json)) →
        dget json "status" = none →
        dget (AgtsdbxClient_health_check sessionInit att max_retries retry_delay)
          "status" = some "healthy")
    ∧ (∀ text,
        (make_request sessionInit "GET" "/health" att max_retries retry_delay).result
          = .ok (some (Sum.inr text)) →
        dget (AgtsdbxClient_health_check sessionInit att max_retries retry_delay)
          "status" = some "healthy")
    ∧ (∀ e, run = .error e →
        FabricClient_health_check run
          = [("status", "unhealthy"), ("error", e)])
    ∧ (dget (FabricClient_health_check run) "status" = some "healthy"
      ∨ dget (FabricClient_health_check run) "status" = some "unhealthy") := by
  refine ⟨?_, ?_, ?_, ?_, ?_⟩
  · intro err herr
    simp [AgtsdbxClient_health_check, herr]
  · intro json hjson hnone
    simp only [AgtsdbxClient_health_check, hjson]
    simp only [dget, List.reverse_cons, List.find?_append]
    simp only [dget] at hnone
    rcases hfind : json.reverse.find? (fun p => p.1 = "status") with _ | p
    · simp [hfind, List.find?]
    · rw [hfind] at hnone; simp at hnone
  · intro text htext
    simp [AgtsdbxClient_health_check, htext, dget, List.find?]
  · intro e he
    simp [FabricClient_health_check, he]
  · cases run with
    | ok duration => left; simp [FabricClient_health_check, dget, List.find?]
    | error e => right; simp [FabricClient_health_check, dget, List.find?]

/-- Witness for the amended C8 theorem: a 404 from `/health` is
recovered into an `unhealthy` envelope, and a failed completion makes
the Fabric health check `unhealthy`. -/
theorem health_check_recovers_failures_witness :
    AgtsdbxClient_health_check true att404 3 1
      = [("status", "unhealthy"), ("error", requestErrorMsg (.http 404))]
    ∧ FabricClient_health_check (.error "Connection error")
      = [("status", "unhealthy"), ("error", "Connection error")]
    ∧ (dget (FabricClient_health_check (.error "Connection error")) "status"
        = some "healthy"
      ∨ dget (FabricClient_health_check (.error "Connection error")) "status"
        = some "unhealthy") := by
  have hres : (make_request true "GET" "/health" att404 3 1).result
      = .error (.http 404) := by
    simp only [make_request, if_true]
    rw [requestLoop]
    norm_num [att404]
  refine ⟨(health_check_recovers_failures true att404 3 1 (.error "Connection error")).1
      (.http 404) hres,
    (health_check_recovers_failures true att404 3 1 (.error "Connection error")).2.2.2.1
      "Connection error" rfl,
    (health_check_recovers_failures true att404 3 1 (.error "Connection error")).2.2.2.2⟩

/-! ## ExecutionTools (claim C7, frontend/src/tools/execution_tools.py)

`execute_parallel_commands` runs each command under a semaphore-bounded
worker, collects the results with `asyncio.gather` (which positions
results by *input index*, not completion order), and formats them in
enumeration order.  The per-command remote call is abstracted by an
oracle `outcome : Nat → CmdOutcome`; the semaphore schedule is
abstracted by the completion trace `events`. -/

/-- A result dict of `client.execute_command` as consumed by
`_format_execution_result`: the keys it reads, with `metadata`
reduced to the `duration` it extracts. -/
structure ExecResult where
  error : Option String := none
  command : Option String := none
  stdout : Option String := none
  stderr : Option String := none
  exit_code : Option Int := none
  return_value : Option Int := none
  metadata : Option ℚ := none
deriving Repr, DecidableEq

/-- Outcome of one command's `client.execute_command` call: the
returned dict, or the message of a raised exception. -/
inductive CmdOutcome where
  | ok (result : ExecResult)
  | exn (e : String)
deriving Repr, DecidableEq

/-- The inner `execute_single` closure (lines 162–168): run the
command; an exception is caught and turned into
`{"error": str(e), "command": cmd}`. -/
def execute_single (cmd : String) : CmdOutcome → ExecResult
  | .ok r => r
  | .exn e => { error := some e, command := some cmd }

/-- `ExecutionTools._format_execution_result` (lines 184–204).
`fmtF` renders the `f"{duration:.2f}"` float formatting; Python
truthiness makes empty `stdout`/`stderr` strings skipped. -/
def format_execution_result (fmtF : ℚ → String) (r : ExecResult) : String :=
  match r.error with
  | some e => "Error: " ++ e
  | none =>
    let parts : List String :=
      (match r.stdout with
       | some s => if s = "" then [] else ["STDOUT:\n" ++ s]
       | none => [])
      ++ (match r.stderr with
       | some s => if s = "" then [] else ["STDERR:\n" ++ s]
       | none => [])
      ++ ["EXIT CODE: " ++ toString (r.exit_code.getD (r.return_value.getD 0))]
      ++ (match r.metadata with
       | some duration => ["DURATION: " ++ fmtF duration ++ "s"]
       | none => [])
    String.intercalate "\n\n" parts

/-- `"-" * 50` -/
def dashes : String := String.mk (List.replicate 50 '-')

/-- `asyncio.gather` reassembly: the workers complete in the order of
the trace `events` (pairs of input index and produced result), but
`gather` returns results positioned by input index. -/
def gatherResults (events : List (Nat × ExecResult)) (n : Nat) :
    List (Option ExecResult) :=
  (List.range n).map (fun i => (events.find? (fun ev => ev.1 = i)).map (fun ev => ev.2))

/-- `ExecutionTools.execute_parallel_commands` (lines 151–182): empty
command list short-circuits; otherwise each command's result is
collected by input index and formatted in enumeration order as
`Command {i+1}: {commands[i]}`, the formatted result, and a dashed
separator, joined by newlines. -/
instance : Inhabited ExecResult := ⟨{}⟩

def execute_parallel_commands (fmtF : ℚ → String) (commands : List String)
    (outcome : Nat → CmdOutcome) : String :=
  if commands.isEmpty then "No commands provided"
  else
    let results := (List.range commands.length).map
      (fun i => execute_single (commands.getD i "") (outcome i))
    String.intercalate "\n" ((List.range results.length).flatMap (fun i =>
      ["Command " ++ toString (i + 1) ++ ": " ++ commands.getD i "",
       format_execution_result fmtF (results.getD i default),
       dashes]))

/-- `flatMap` respects pointwise-equal block functions. -/
theorem flatMapCongr {α β : Type} {l : List α} {f g : α → List β}
    (h : ∀ a ∈ l, f a = g a) : l.flatMap f = l.flatMap g := by
  induction l with
  | nil => rfl
  | cons a l ih =>
    simp only [List.flatMap_cons]
    rw [h a (List.mem_cons_self _ _), ih (fun a ha => h a (List.mem_cons_of_mem _ ha))]

/-- **C7** (confirmed).  For a non-empty command list: (i) whatever
order the bounded workers complete in — any permutation `events` of
the indexed per-command results — `gather` reassembles the results in
original input order; (ii) the formatted output is the concatenation
of per-command blocks in list order, command `i`'s block labelled with
command `i`; (iii) if one command fails internally, its block reports
the error inline and every other command's block is unchanged. -/
theorem execute_parallel_commands_order_and_isolation
    (fmtF : ℚ → String) (commands : List String)
    (outcome₁ outcome₂ : Nat → CmdOutcome)
    (events : List (Nat × ExecResult)) (j : Nat) (e : String)
    (hne : commands ≠ [])
    (hperm : events.Perm ((List.range commands.length).map
      (fun i => (i, execute_single (commands.getD i "") (outcome₁ i)))))
    (hdiff : ∀ i, i ≠ j → outcome₂ i = outcome₁ i)
    (hfail : outcome₂ j = .exn e) :
    gatherResults events commands.length
      = (List.range commands.length).map
          (fun i => some (execute_single (commands.getD i "") (outcome₁ i)))
    ∧ execute_parallel_commands fmtF commands outcome₁
      = String.intercalate "\n" ((List.range commands.length).flatMap (fun i =>
          ["Command " ++ toString (i + 1) ++ ": " ++ commands.getD i "",
           format_execution_result fmtF (execute_single (commands.getD i "") (outcome₁ i)),
           dashes]))
    ∧ execute_parallel_commands fmtF commands outcome₂
      = String.intercalate "\n" ((List.range commands.length).flatMap (fun i =>
          if i = j then
            ["Command " ++ toString (i + 1) ++ ": " ++ commands.getD i "",
             "Error: " ++ e,
             dashes]
          else
            ["Command " ++ toString (i + 1) ++ ": " ++ commands.getD i "",
             format_execution_result fmtF (execute_single (commands.getD i "") (outcome₁ i)),
             dashes])) := by
  have key : ∀ (f : Nat → ExecResult) (n i : Nat), i < n →
      ∀ (evs : List (Nat × ExecResult)),
      evs.Perm ((List.range n).map (fun i => (i, f i))) →
      evs.find? (fun ev => ev.1 = i) = some (i, f i) := by
    intro f n i hi evs hp
    have hmem : (i, f i) ∈ evs := by
      rw [hp.mem_iff]
      exact List.mem_map.mpr ⟨i, List.mem_range.mpr hi, rfl⟩
    have hsome : (evs.find? (fun ev => ev.1 = i)).isSome := by
      rw [List.find?_isSome]
      exact ⟨(i, f i), hmem, by simp⟩
    obtain ⟨p, hfound⟩ := Option.isSome_iff_exists.mp hsome
    have hp1 : p.1 = i := by
      have := List.find?_some hfound
      simpa using this
    have hpin : p ∈ evs := List.mem_of_find?_eq_some hfound
    have hpin' : p ∈ (List.range n).map (fun i => (i, f i)) := hp.mem_iff.mp hpin
    obtain ⟨k, _, hk⟩ := List.mem_map.mp hpin'
    have : p = (i, f i) := by
      rw [← hk] at hp1 ⊢
      simp at hp1
      simp [hp1]
    rw [hfound, this]
  refine ⟨?_, ?_, ?_⟩
  · unfold gatherResults
    apply List.map_congr_left
    intro i hi
    rw [key (fun i => execute_single (commands.getD i "") (outcome₁ i))
      commands.length i (List.mem_range.mp hi) events hperm]
    rfl
  · rw [execute_parallel_commands, if_neg (by simpa using hne)]
    simp only [List.length_map, List.length_range]
    apply congrArg (String.intercalate "\n")
    apply flatMapCongr
    intro i hi
    have hget : ((List.range commands.length).map
        (fun i => execute_single (commands.getD i "") (outcome₁ i))).getD i default
        = execute_single (commands.getD i "") (outcome₁ i) := by
      rw [List.getD_eq_getElem?_getD, List.getElem?_map, List.getElem?_range
        (List.mem_range.mp hi)]
      rfl
    rw [hget]
  · rw [execute_parallel_commands, if_neg (by simpa using hne)]
    simp only [List.length_map, List.length_range]
    apply congrArg (String.intercalate "\n")
    apply flatMapCongr
    intro i hi
    have hget : ((List.range commands.length).map
        (fun i => execute_single (commands.getD i "") (outcome₂ i))).getD i default
        = execute_single (commands.getD i "") (outcome₂ i) := by
      rw [List.getD_eq_getElem?_getD, List.getElem?_map, List.getElem?_range
        (List.mem_range.mp hi)]
      rfl
    rw [hget]
    by_cases hij : i = j
    · subst hij
      rw [hfail, if_pos rfl]
      rfl
    · rw [hdiff i hij, if_neg hij]

/-- A successful command result used in the C7 witness scenario. -/
def cmdOk : ExecResult := { stdout := some "out" }

/-- All three commands succeed. -/
def outcomeAllOk : Nat → CmdOutcome := fun _ => .ok cmdOk

/-- Command B (index 1) fails internally; the others are unchanged. -/
def outcomeFailB : Nat → CmdOutcome :=
  fun i => if i = 1 then .exn "boom" else outcomeAllOk i

/-- Completion trace in which B finishes before A: (index, result)
pairs in completion order. -/
def eventsBAC : List (Nat × ExecResult) := [(1, cmdOk), (0, cmdOk), (2, cmdOk)]

/-- Constant stand-in for the `.2f` float formatting. -/
def fmtConst : ℚ → String := fun _ => "0.00"

/-- Witness for the C7 theorem at `commands = [A,B,C]`,
`max_concurrent`-bounded workers completing in order B, A, C, and B
failing in the perturbed run. -/
theorem execute_parallel_commands_order_and_isolation_witness :
    gatherResults eventsBAC (["A", "B", "C"] : List String).length
      = (List.range (["A", "B", "C"] : List String).length).map
          (fun i => some (execute_single ((["A", "B", "C"] : List String).getD i "")
            (outcomeAllOk i)))
    ∧ execute_parallel_commands fmtConst ["A", "B", "C"] outcomeAllOk
      = String.intercalate "\n"
          ((List.range (["A", "B", "C"] : List String).length).flatMap (fun i =>
            ["Command " ++ toString (i + 1) ++ ": "
               ++ (["A", "B", "C"] : List String).getD i "",
             format_execution_result fmtConst
               (execute_single ((["A", "B", "C"] : List String).getD i "")
                 (outcomeAllOk i)),
             dashes]))
    ∧ execute_parallel_commands fmtConst ["A", "B", "C"] outcomeFailB
      = String.intercalate "\n"
          ((List.range (["A", "B", "C"] : List String).length).flatMap (fun i =>
            if i = 1 then
              ["Command " ++ toString (i + 1) ++ ": "
                 ++ (["A", "B", "C"] : List String).getD i "",
               "Error: " ++ "boom",
               dashes]
            else
              ["Command " ++ toString (i + 1) ++ ": "
                 ++ (["A", "B", "C"] : List String).getD i "",
               format_execution_result fmtConst
                 (execute_single ((["A", "B", "C"] : List String).getD i "")
                   (outcomeAllOk i)),
               dashes])) :=
  execute_parallel_commands_order_and_isolation fmtConst ["A", "B", "C"]
    outcomeAllOk outcomeFailB eventsBAC 1 "boom"
    (by decide) (by decide)
    (fun i hi => by simp only [outcomeFailB, if_neg hi]) rfl

/-! ## CacheManager (claim C10, frontend/src/core/cache.py)

`self.cache` is an `OrderedDict[str, Tuple[Any, float]]`; here it is
the association list in insertion order, oldest first.  `time.time()`
is an explicit `now` argument. -/

/-- `max_size` and default `ttl` of a `CacheManager`. -/
structure CacheConfig where
  max_size : Nat
  ttl : Nat
deriving Repr, DecidableEq

/-- `self.cache[key]` as a lookup (dict keys are unique). -/
def odLookup {V : Type} (st : List (String × V × Nat)) (k : String) :
    Option (V × Nat) :=
  (st.find? (fun p => p.1 = k)).map (fun p => p.2)

/-- `del self.cache[key]`. -/
def odDelete {V : Type} (st : List (String × V × Nat)) (k : String) :
    List (String × V × Nat) :=
  st.filter (fun p => p.1 ≠ k)

/-- `self.cache[key] = vt`: an `OrderedDict` assignment replaces in
place when the key exists (keeping its position) and appends at the
(most-recent) end otherwise. -/
def odAssign {V : Type} (st : List (String × V × Nat)) (k : String) (vt : V × Nat) :
    List (String × V × Nat) :=
  if st.any (fun p => p.1 = k) then
    st.map (fun p => if p.1 = k then (k, vt) else p)
  else st ++ [(k, vt)]

/-- `CacheManager.get` (cache.py lines 29–46): a hit that is still
fresh (`now - timestamp < current_ttl`, with the per-call `ttl`
overriding the default) is moved to the most-recent end
(`move_to_end`) and returned; an expired hit is deleted; a miss leaves
the cache unchanged. -/
def cache_get {V : Type} (cfg : CacheConfig) (st : List (String × V × Nat))
    (key : String) (ttl : Option Nat) (now : Nat) :
    Option V × List (String × V × Nat) :=
  match odLookup st key with
  | some (value, timestamp) =>
    let current_ttl := ttl.getD cfg.ttl
    if (now : ℤ) - (timestamp : ℤ) < (current_ttl : ℤ) then
      (some value, odDelete st key ++ [(key, (value, timestamp))])
    else
      (none, odDelete st key)
  | none => (none, st)

/-- `CacheManager.set` (cache.py lines 48–55): when at capacity
(`len(self.cache) >= self.max_size`) first evict the oldest entry
(`popitem(last=False)`), then insert.  `popitem` on an empty dict
raises `KeyError` and leaves the state unchanged (reachable only with
`max_size = 0`). -/
def cache_set {V : Type} (cfg : CacheConfig) (st : List (String × V × Nat))
    (key : String) (value : V) (now : Nat) : List (String × V × Nat) :=
  if cfg.max_size ≤ st.length then
    match st with
    | [] => st
    | _ :: rest => odAssign rest key (value, now)
  else odAssign st key (value, now)

/-- The `CacheManager` operations. -/
inductive CacheOp (V : Type) where
  | get (key : String) (ttl : Option Nat) (now : Nat)
  | set (key : String) (value : V) (now : Nat)
  | remove (key : String)
  | clear

/-- One operation's effect on the cache state (`remove` is
`CacheManager.remove`, `clear` is `CacheManager.clear`). -/
def cacheStep {V : Type} (cfg : CacheConfig) (st : List (String × V × Nat)) :
    CacheOp V → List (String × V × Nat)
  | .get key ttl now => (cache_get cfg st key ttl now).2
  | .set key value now => cache_set cfg st key value now
  | .remove key => odDelete st key
  | .clear => []

/-- Run a sequence of operations from the empty cache. -/
def cacheRun {V : Type} (cfg : CacheConfig) (ops : List (CacheOp V)) :
    List (String × V × Nat) :=
  ops.foldl (cacheStep cfg) []

/-- Deleting a present key strictly shrinks the cache. -/
theorem odDelete_length_lt {V : Type} (st : List (String × V × Nat)) (k : String)
    (h : (odLookup st k).isSome) : (odDelete st k).length < st.length := by
  rw [odDelete, List.length_filter_lt_length_iff_exists]
  rw [odLookup] at h
  cases hf : st.find? (fun p => p.1 = k) with
  | none => rw [hf] at h; simp at h
  | some q =>
    refine ⟨q, List.mem_of_find?_eq_some hf, ?_⟩
    have h2 := List.find?_some hf
    simp only [decide_eq_true_eq] at h2
    simp [h2]

/-- `odAssign` grows the cache by at most one entry. -/
theorem odAssign_length_le {V : Type} (st : List (String × V × Nat)) (k : String)
    (vt : V × Nat) : (odAssign st k vt).length ≤ st.length + 1 := by
  rw [odAssign]
  split
  · simp
  · simp

/-- One step never pushes the cache above `max_size`. -/
theorem cacheStep_length_le {V : Type} (cfg : CacheConfig)
    (st : List (String × V × Nat)) (op : CacheOp V)
    (h : st.length ≤ cfg.max_size) :
    (cacheStep cfg st op).length ≤ cfg.max_size := by
  cases op with
  | get key ttl now =>
    simp only [cacheStep, cache_get]
    cases hl : odLookup st key with
    | none => simpa using h
    | some vt =>
      obtain ⟨value, ts⟩ := vt
      dsimp only
      have hlt := odDelete_length_lt st key (by simp [hl])
      by_cases hfresh : (now : ℤ) - (ts : ℤ) < ((ttl.getD cfg.ttl : Nat) : ℤ)
      · rw [if_pos hfresh]
        dsimp only
        rw [List.length_append]
        simp only [List.length_cons, List.length_nil]
        omega
      · rw [if_neg hfresh]
        dsimp only
        omega
  | set key value now =>
    simp only [cacheStep, cache_set]
    by_cases hcap : cfg.max_size ≤ st.length
    · rw [if_pos hcap]
      cases st with
      | nil => exact Nat.zero_le _
      | cons p rest =>
        dsimp only
        have hle := odAssign_length_le rest key (value, now)
        simp only [List.length_cons] at h hcap
        omega
    · rw [if_neg hcap]
      have hle := odAssign_length_le st key (value, now)
      omega
  | remove key =>
    simp only [cacheStep, odDelete]
    have hle := List.length_filter_le (fun p => p.1 ≠ key) st
    omega
  | clear => exact Nat.zero_le _

/-- **C10** (confirmed).  (i) For every operation sequence from the
empty cache, the number of stored entries never exceeds `max_size`.
(ii) `set` at capacity evicts the front (least recently used) entry
before inserting: the old front key disappears (when distinct from
the inserted key and not duplicated) and the new key is present.
(iii) A fresh `get` refreshes recency: the hit entry is moved to the
most-recent end. -/
theorem cache_never_exceeds_max_size {V : Type} (cfg : CacheConfig)
    (ops : List (CacheOp V)) :
    (cacheRun cfg ops).length ≤ cfg.max_size
    ∧ (∀ (p : String × V × Nat) (rest : List (String × V × Nat))
        (key : String) (value : V) (now : Nat),
        cfg.max_size ≤ (p :: rest).length →
        cache_set cfg (p :: rest) key value now = odAssign rest key (value, now)
        ∧ key ∈ (cache_set cfg (p :: rest) key value now).map (fun q => q.1)
        ∧ (p.1 ≠ key → p.1 ∉ rest.map (fun q => q.1) →
            p.1 ∉ (cache_set cfg (p :: rest) key value now).map (fun q => q.1)))
    ∧ (∀ (st : List (String × V × Nat)) (key : String) (value : V) (ts : Nat)
        (ttl : Option Nat) (now : Nat),
        odLookup st key = some (value, ts) →
        (now : ℤ) - (ts : ℤ) < ((ttl.getD cfg.ttl : Nat) : ℤ) →
        ((cache_get cfg st key ttl now).2).getLast? = some (key, (value, ts))) := by
  refine ⟨?_, ?_, ?_⟩
  · have main : ∀ (l : List (CacheOp V)) (st : List (String × V × Nat)),
        st.length ≤ cfg.max_size →
        (l.foldl (cacheStep cfg) st).length ≤ cfg.max_size := by
      intro l
      induction l with
      | nil => exact fun st h => h
      | cons op rest ih =>
        intro st h
        exact ih _ (cacheStep_length_le cfg st op h)
    exact main ops [] (Nat.zero_le _)
  · intro p rest key value now hcap
    have hset : cache_set cfg (p :: rest) key value now
        = odAssign rest key (value, now) := by
      rw [cache_set, if_pos hcap]
    refine ⟨hset, ?_, ?_⟩
    · rw [hset, odAssign]
      split
      next hany =>
        obtain ⟨q, hq, hq1⟩ := List.any_eq_true.mp hany
        simp only [decide_eq_true_eq] at hq1
        refine List.mem_map.mpr ⟨(key, (value, now)), ?_, rfl⟩
        refine List.mem_map.mpr ⟨q, hq, ?_⟩
        rw [if_pos hq1]
      next hany => simp
    · intro hpk hpnot
      rw [hset, odAssign]
      split
      next hany =>
        intro hmem
        obtain ⟨q, hq, hq1⟩ := List.mem_map.mp hmem
        obtain ⟨q', hq', hq'eq⟩ := List.mem_map.mp hq
        by_cases hq'k : q'.1 = key
        · rw [if_pos hq'k] at hq'eq
          rw [← hq'eq] at hq1
          exact hpk hq1.symm
        · rw [if_neg hq'k] at hq'eq
          refine hpnot (List.mem_map.mpr ⟨q', hq', ?_⟩)
          rw [hq'eq]
          exact hq1
      next hany =>
        intro hmem
        rw [List.map_append] at hmem
        rcases List.mem_append.mp hmem with h1 | h2
        · exact hpnot h1
        · simp at h2
          exact hpk h2
  · intro st key value ts ttl now hl hfresh
    simp only [cache_get, hl, if_pos hfresh]
    exact List.getLast?_concat _

end Agtsdbx
